import Mathlib

/-!
# ros_scxml demo node (`src/demo_scxml_sm.cpp`)

A shallow embedding of the demo executable: the two transport handlers of
`ROSInterface`, the `MockApplication` workload, the callbacks registered by
`main`, and the start-up control flow of `main`.

Effects are recorded as an ordered list of `Event`s.  The engine class
`StateMachine` is declared in `ros_scxml/state_machine.h`, which is not part of
the translated file; every answer it gives to this file is therefore taken as a
parameter (`SMView` for the handlers, `MainEnv` for `main`).
-/

namespace RosScxml

/-! ## Constants (lines 9-12) -/

def CURRENT_STATE_TOPIC : String := "current_state"
def EXECUTE_STATE_TOPIC : String := "execute_state"
def PRINT_ACTIONS_SERVICE : String := "print_actions"
def PROCESS_EXECUTION_MSG : String := "process_msg"

/-! ## Data passed across the engine boundary -/

/-- An action as built by `Action{.id = ...}`: only the identifier is given, the
payload keeps its default. -/
structure Action where
  id : String
  data : Option String := none
deriving DecidableEq, Repr

/-- The engine answer type; this file only builds it from a truth value
(`return true;`) and tests it as one (`if(res)`). -/
structure Response where
  success : Bool
deriving DecidableEq, Repr

/-- A clock reading (`ros::Time::now().toSec()`), kept abstract. -/
abbrev Time := Nat

/-- Durations are written in milliseconds: `ros::Duration(3.0)` is `3000`. -/
abbrev Millis := Nat

/-- Every externally visible call made by the translated file. -/
inductive Event where
  /- calls into the engine -/
  | isBusy
  | isRunning
  | getAvailableActions
  | execute (a : Action)
  | postAction (a : Action)
  | loadFile (file : String)
  | addEntryCallback (state : String) (async : Bool)
  | addExitCallback (state : String)
  | connectStateEntered
  | start
  /- middleware -/
  | spinnerStart
  | getParam (name : String)
  | advertise (topic : String)
  | createTimer (period : Millis)
  | subscribe (topic : String)
  | advertiseService (name : String)
  | timerStart
  | publishProcessMsg (now : Time)
  | sleep (d : Millis)
  | rosError (msg : String)
  | rosInfo (msg : String)
  /- one `std::cout << a << b << std::endl` line, as the chunks inserted -/
  | coutLine (chunks : List String)
  /- main loop and shutdown -/
  | processEvents
  | throttleSleep
  | appExit
  | spinnerStop
deriving DecidableEq, Repr

/-! ## `ROSInterface` handlers (lines 38-83) -/

/-- What the engine answers when a handler queries it. -/
structure SMView where
  busy : Bool
  running : Bool
  actions : List String
  executeResult : Action → Response

/-- The fields of `std_srvs::Trigger::Response`. -/
structure TriggerResponse where
  success : Bool
  message : String
deriving DecidableEq, Repr

/-- Outcome of one service call: the value returned by the handler, the response
object after the call, and the calls made. -/
structure ServiceOutcome where
  ret : Bool
  res : TriggerResponse
  trace : List Event
deriving DecidableEq, Repr

/-- The `execute_state` subscriber callback (lines 39-51). -/
def executeStateHandler (sm : SMView) (msgData : String) : List Event :=
  if sm.busy then
    [Event.isBusy, Event.rosError "State Machine is busy"]
  else
    let res := sm.executeResult { id := msgData }
    if res.success then
      [Event.isBusy, Event.execute { id := msgData },
        Event.rosInfo ("Action " ++ msgData ++ " successfully executed")]
    else
      [Event.isBusy, Event.execute { id := msgData }]

/-- The `print_actions` service callback (lines 55-83); `res` is the response
object handed in by reference. -/
def printActionsHandler (sm : SMView) (res : TriggerResponse) : ServiceOutcome :=
  if !sm.running then
    let msg := "SM is not running"
    { ret := true, res := { success := false, message := msg },
      trace := [Event.isRunning, Event.rosError msg] }
  else
    let actions := sm.actions
    if actions.isEmpty then
      let msg := "No actions available within the current state"
      { ret := true, res := { success := false, message := msg },
        trace := [Event.isRunning, Event.getAvailableActions, Event.rosError msg] }
    else
      { ret := true, res := { res with success := true },
        trace := [Event.isRunning, Event.getAvailableActions,
                  Event.coutLine ["\nSM Actions: "]]
                 ++ actions.map (fun s => Event.coutLine ["\t-", s]) }

/-- The action ids written to standard output: the second chunk of every output
line that has one. -/
def emittedIds (trace : List Event) : List String :=
  trace.filterMap (fun e =>
    match e with
    | Event.coutLine (_ :: s :: _) => some s
    | _ => none)

/-- Number of `execute` calls in a trace. -/
def countExecute (trace : List Event) : Nat :=
  (trace.filter (fun e => match e with | Event.execute _ => true | _ => false)).length

/-- Number of `postAction` calls in a trace. -/
def countPost (trace : List Event) : Nat :=
  (trace.filter (fun e => match e with | Event.postAction _ => true | _ => false)).length

/-- The actions handed to `execute`, in call order. -/
def executedActions (trace : List Event) : List Action :=
  trace.filterMap (fun e => match e with | Event.execute a => some a | _ => none)

/-- The actions handed to `postAction`, in call order. -/
def postedActions (trace : List Event) : List Action :=
  trace.filterMap (fun e => match e with | Event.postAction a => some a | _ => none)

/-! ## `MockApplication` (lines 99-158), one thread at a time -/

/-- The two atomic flags of `MockApplication`. -/
structure MockApplication where
  continue_process_ : Bool
  ready_ : Bool
deriving DecidableEq, Repr

/-- Outcome of a `MockApplication` method: returned value (when it has one), the
object afterwards, and the calls made. -/
structure ProcessOutcome where
  ret : Bool
  app : MockApplication
  trace : List Event
deriving DecidableEq, Repr

/-- The constructor (lines 102-107). -/
def MockApplication.create : MockApplication × List Event :=
  ({ continue_process_ := false, ready_ := false }, [Event.advertise PROCESS_EXECUTION_MSG])

/-- `resetProcess` (lines 114-119). -/
def resetProcess (app : MockApplication) : MockApplication × List Event :=
  let app1 := { app with ready_ := true }
  let app2 := { app1 with continue_process_ := true }
  (app2, [Event.rosInfo "Reseted process variables"])

/-- The `while(continue_process_ && ros::ok())` loop of `executeProcess` when no
other thread writes the flags.  `oks` lists the clock readings of the successive
iterations for which `ros::ok()` answers true; after them it answers false.
`ros::ok()` is not consulted when the flag is already false. -/
def processLoop (continueFlag : Bool) : List Time → List Event
  | [] => []
  | now :: later =>
    if continueFlag then
      Event.publishProcessMsg now :: Event.sleep 2000 :: processLoop continueFlag later
    else []

/-- `executeProcess` (lines 125-142) when no other thread writes the flags. -/
def executeProcess (app : MockApplication) (oks : List Time) : ProcessOutcome :=
  if !app.ready_ then
    { ret := false, app := app, trace := [] }
  else
    { ret := true, app := app, trace := processLoop app.continue_process_ oks }

/-- `haltProcess` (lines 144-150). -/
def haltProcess (app : MockApplication) : MockApplication × List Event :=
  let app1 := { app with continue_process_ := false }
  let app2 := { app1 with ready_ := false }
  (app2, [Event.rosInfo "Process halted"])

/-! ## The callbacks registered by `main` (lines 196-235) -/

/-- Outcome of an entry callback. -/
structure CallbackOutcome where
  res : Response
  app : MockApplication
  trace : List Event
deriving DecidableEq, Repr

/-- Entry callback of `st3Reseting` (lines 200-206). -/
def st3ResetingEntry (_action : Action) (app : MockApplication) (_oks : List Time) :
    CallbackOutcome :=
  let r := resetProcess app
  { res := { success := true }, app := r.1,
    trace := r.2 ++ [Event.sleep 3000, Event.postAction { id := "trIdle" }] }

/-- Entry callback of `st3Execute` (lines 211-213). -/
def st3ExecuteEntry (_action : Action) (app : MockApplication) (oks : List Time) :
    CallbackOutcome :=
  let r := executeProcess app oks
  { res := { success := r.ret }, app := r.app, trace := r.trace }

/-- Exit callback of `st3Execute` (lines 218-220). -/
def st3ExecuteExit (app : MockApplication) : MockApplication × List Event :=
  haltProcess app

/-- Entry callback of `st2Clearing` (lines 225-233). -/
def st2ClearingEntry (_action : Action) (app : MockApplication) (_oks : List Time) :
    CallbackOutcome :=
  { res := { success := true }, app := app,
    trace := [Event.rosInfo "Clearing to enable process, please wait ...",
              Event.sleep 3000,
              Event.rosInfo "Done Clearing",
              Event.postAction { id := "trStopped" }] }

/-- A callback handed to the engine: an entry callback comes with its execution
mode (the last argument of `addEntryCallback`), an exit callback has none. -/
inductive Callback where
  | entry (async : Bool) (body : Action → MockApplication → List Time → CallbackOutcome)
  | exit (body : MockApplication → MockApplication × List Event)

/-- One element of the vector `functions`: the state name and the callback. -/
structure Registration where
  state : String
  callback : Callback

/-- The vector `functions` (lines 196-235), in declaration order. -/
def functions : List Registration :=
  [ { state := "st3Reseting", callback := Callback.entry false st3ResetingEntry },
    { state := "st3Execute", callback := Callback.entry true st3ExecuteEntry },
    { state := "st3Execute", callback := Callback.exit st3ExecuteExit },
    { state := "st2Clearing", callback := Callback.entry true st2ClearingEntry } ]

/-- Whether a trace contains a blocking wait. -/
def hasSleep (trace : List Event) : Bool :=
  trace.any (fun e => match e with | Event.sleep _ => true | _ => false)

/-! ## `main` (lines 161-268) -/

/-- What the middleware and the engine answer to `main`.  `okTicks` is the number
of times `ros::ok()` answers true in the main loop before it answers false. -/
structure MainEnv where
  param : Option String
  loadFile : String → Bool
  addEntryCallback : String → Bool → Bool
  addExitCallback : String → Bool
  start : Bool
  okTicks : Nat

/-- The engine call made by one element of `functions`. -/
def Registration.event (r : Registration) : Event :=
  match r.callback with
  | Callback.entry async _ => Event.addEntryCallback r.state async
  | Callback.exit _ => Event.addExitCallback r.state

/-- The value that call returns. -/
def Registration.result (env : MainEnv) (r : Registration) : Bool :=
  match r.callback with
  | Callback.entry async _ => env.addEntryCallback r.state async
  | Callback.exit _ => env.addExitCallback r.state

/-- `std::all_of(functions.begin(), functions.end(), [](auto& f){ return f(); })`:
calls the elements in order and stops at the first one that returns false. -/
def allOf (env : MainEnv) : List Registration → Bool × List Event
  | [] => (true, [])
  | r :: rest =>
    if r.result env then
      let o := allOf env rest
      (o.1, r.event :: o.2)
    else (false, [r.event])

/-- The calls of the `ROSInterface` constructor (lines 19-86). -/
def rosInterfaceCtor : List Event :=
  [ Event.advertise CURRENT_STATE_TOPIC,
    Event.connectStateEntered,
    Event.createTimer 200,
    Event.subscribe EXECUTE_STATE_TOPIC,
    Event.advertiseService PRINT_ACTIONS_SERVICE,
    Event.timerStart ]

/-- The main loop (lines 257-261). -/
def mainLoop : Nat → List Event
  | 0 => []
  | n + 1 => Event.processEvents :: Event.throttleSleep :: mainLoop n

/-- Exit code of `main` and the calls made by the main thread. -/
structure MainOutcome where
  ret : Int
  trace : List Event
deriving DecidableEq, Repr

/-- The function `main`.  Constructions that call neither the engine nor the
transport (`ros::init`, the node handles, `ros::Rate`, `QApplication`) leave no
event; handlers and timers run on other threads and are not part of this trace. -/
def main (env : MainEnv) : MainOutcome :=
  let t0 := [Event.spinnerStart, Event.getParam "state_machine_file"]
  match env.param with
  | none =>
    { ret := -1, trace := t0 ++ [Event.rosError "failed to load state machine file"] }
  | some file =>
    let t1 := t0 ++ [Event.loadFile file]
    if !env.loadFile file then
      { ret := -1,
        trace := t1 ++ [Event.rosError ("Failed to load state machine file " ++ file)] }
    else
      let t2 := t1 ++ [Event.rosInfo "Loaded file"] ++ MockApplication.create.2
      let regs := allOf env functions
      if !regs.1 then
        { ret := -1,
          trace := t2 ++ regs.2
                   ++ [Event.rosError "Failed to setup application specific functions"] }
      else
        let t3 := t2 ++ regs.2 ++ rosInterfaceCtor ++ [Event.start]
        if !env.start then
          { ret := -1, trace := t3 ++ [Event.rosError "Failed to start SM"] }
        else
          { ret := 0,
            trace := t3 ++ mainLoop env.okTicks ++ [Event.appExit, Event.spinnerStop] }

/-- The four registration calls of `main`, in declaration order. -/
def registrationCalls : List Event :=
  [ Event.addEntryCallback "st3Reseting" false,
    Event.addEntryCallback "st3Execute" true,
    Event.addExitCallback "st3Execute",
    Event.addEntryCallback "st2Clearing" true ]

/-- The registration calls found in a trace, in call order. -/
def registrationsIn (trace : List Event) : List Event :=
  trace.filter (fun e =>
    match e with
    | Event.addEntryCallback _ _ => true
    | Event.addExitCallback _ => true
    | _ => false)

/-- The answers the engine gives to the four registrations, in declaration order. -/
def registrationResults (env : MainEnv) : List Bool :=
  [ env.addEntryCallback "st3Reseting" false,
    env.addEntryCallback "st3Execute" true,
    env.addExitCallback "st3Execute",
    env.addEntryCallback "st2Clearing" true ]

/-- Number of registrations attempted for given answers: up to and including the
first false one. -/
def attempted : List Bool → Nat
  | [] => 0
  | b :: rest => if b then attempted rest + 1 else 1

/-- The part of a trace that comes before the first `start` call. -/
def beforeStart (trace : List Event) : List Event :=
  trace.takeWhile (fun e => decide (e ≠ Event.start))

/-! ## `executeProcess` against a concurrent `haltProcess`

Both flags are `std::atomic<bool>` accessed with the default (sequentially
consistent) ordering, so a run of the two threads is an interleaving of their
individual loads and stores. -/

/-- Program points of the thread running `executeProcess`. -/
inductive ExecPc where
  | checkReady
  | checkLoop
  | publish
  | pause
  | done (ret : Bool)
deriving DecidableEq, Repr

/-- Program points of the thread running `haltProcess`. -/
inductive HaltPc where
  | clearContinue
  | clearReady
  | log
  | done
deriving DecidableEq, Repr

/-- A joint state of the two threads.  `published` holds the clock readings of
the messages published so far; `iterations` counts the loop conditions that
evaluated to true. -/
structure Config where
  app : MockApplication
  execPc : ExecPc
  haltPc : HaltPc
  published : List Time
  iterations : Nat
deriving DecidableEq, Repr

/-- One scheduling decision: the `executeProcess` thread moves (with the answer
`ros::ok()` would give and the clock reading it would see), or the `haltProcess`
thread moves. -/
inductive Step where
  | exec (rosOk : Bool) (now : Time)
  | halt
deriving DecidableEq, Repr

/-- One move of the `executeProcess` thread (lines 127-141). -/
def stepExec (c : Config) (rosOk : Bool) (now : Time) : Config :=
  match c.execPc with
  | ExecPc.checkReady =>
    if !c.app.ready_ then { c with execPc := ExecPc.done false }
    else { c with execPc := ExecPc.checkLoop }
  | ExecPc.checkLoop =>
    if c.app.continue_process_ && rosOk then
      { c with execPc := ExecPc.publish, iterations := c.iterations + 1 }
    else { c with execPc := ExecPc.done true }
  | ExecPc.publish => { c with execPc := ExecPc.pause, published := c.published ++ [now] }
  | ExecPc.pause => { c with execPc := ExecPc.checkLoop }
  | ExecPc.done _ => c

/-- One move of the `haltProcess` thread (lines 146-149). -/
def stepHalt (c : Config) : Config :=
  match c.haltPc with
  | HaltPc.clearContinue =>
    { c with app := { c.app with continue_process_ := false }, haltPc := HaltPc.clearReady }
  | HaltPc.clearReady =>
    { c with app := { c.app with ready_ := false }, haltPc := HaltPc.log }
  | HaltPc.log => { c with haltPc := HaltPc.done }
  | HaltPc.done => c

/-- One scheduled move. -/
def step (c : Config) : Step → Config
  | Step.exec rosOk now => stepExec c rosOk now
  | Step.halt => stepHalt c

/-- A whole schedule, moves taken left to right. -/
def run (c : Config) (s : List Step) : Config :=
  s.foldl step c

/-- Both threads at their first statement, on an object with the given flags. -/
def Config.start (app : MockApplication) : Config :=
  { app := app, execPc := ExecPc.checkReady, haltPc := HaltPc.clearContinue,
    published := [], iterations := 0 }

/-- The joint state right after `resetProcess()` on a fresh object. -/
def afterReset : Config :=
  Config.start (resetProcess MockApplication.create.1).1

/-- Number of moves of the `executeProcess` thread in a schedule. -/
def execSteps (s : List Step) : Nat :=
  (s.filter (fun x => match x with | Step.exec _ _ => true | Step.halt => false)).length

/-- Whether `executeProcess` has returned. -/
def Config.returned (c : Config) : Bool :=
  match c.execPc with
  | ExecPc.done _ => true
  | _ => false

/-- Whether `haltProcess` has been invoked (its first statement has run). -/
def Config.haltInvoked (c : Config) : Bool :=
  decide (c.haltPc ≠ HaltPc.clearContinue)

/-- Messages in flight: one while the thread is between the loop condition and
the `publish` call. -/
def Config.pending (c : Config) : Nat :=
  if c.execPc = ExecPc.publish then 1 else 0

/-- An upper bound on the moves `executeProcess` still needs once
`continue_process_` is false. -/
def ExecPc.distance : ExecPc → Nat
  | ExecPc.checkReady => 2
  | ExecPc.checkLoop => 1
  | ExecPc.publish => 3
  | ExecPc.pause => 2
  | ExecPc.done _ => 0

/-- Whether the `ready_` test has been passed: the thread is inside the loop or
has returned true. -/
def Config.pastReady (c : Config) : Bool :=
  match c.execPc with
  | ExecPc.checkReady => false
  | ExecPc.done r => r
  | _ => true

/-- The state of the `haltProcess` thread and of `ready_` after `n` of its moves,
while `executeProcess` still waits at its first statement. -/
def Config.haltedFor (c : Config) (n : Nat) : Prop :=
  c.execPc = ExecPc.checkReady
  ∧ ((n = 0 ∧ c.haltPc = HaltPc.clearContinue ∧ c.app.ready_ = true)
     ∨ (n = 1 ∧ c.haltPc = HaltPc.clearReady ∧ c.app.ready_ = true)
     ∨ (2 ≤ n ∧ (c.haltPc = HaltPc.log ∨ c.haltPc = HaltPc.done) ∧ c.app.ready_ = false))

/-- The schedule of an undisturbed `executeProcess` call seeing the clock
readings `oks` and then `ros::ok()` false. -/
def soloSchedule (oks : List Time) : List Step :=
  Step.exec true 0
    :: (oks.flatMap (fun t => [Step.exec true t, Step.exec true t, Step.exec true t])
        ++ [Step.exec false 0])

/-- The clock readings of the messages published in a trace. -/
def publishedTimes (trace : List Event) : List Time :=
  trace.filterMap (fun e => match e with | Event.publishProcessMsg t => some t | _ => none)

/-! ## Theorems: the transport handlers -/

/-- C1: the `print_actions` handler reports failure in exactly two cases.  When
the machine is not running the response is `success = false` with message
"SM is not running" and `getAvailableActions` is not called; when it is running
with an empty action list the response is `success = false` with message
"No actions available within the current state"; and `success` is false after the
call in no other case. -/
theorem print_actions_failure_cases (sm : SMView) (res : TriggerResponse) :
    (sm.running = false →
      (printActionsHandler sm res).res
          = { success := false, message := "SM is not running" }
        ∧ Event.getAvailableActions ∉ (printActionsHandler sm res).trace)
    ∧ (sm.running = true → sm.actions = [] →
      (printActionsHandler sm res).res
          = { success := false, message := "No actions available within the current state" })
    ∧ ((printActionsHandler sm res).res.success = false
        ↔ (sm.running = false ∨ (sm.running = true ∧ sm.actions = []))) := by
  refine ⟨?_, ?_, ?_⟩
  · intro h
    simp [printActionsHandler, h]
  · intro h1 h2
    simp [printActionsHandler, h1, h2]
  · cases hr : sm.running
    · simp [printActionsHandler, hr]
    · cases ha : sm.actions <;> simp [printActionsHandler, hr, ha]

/-- Witness for C1: a stopped machine. -/
theorem print_actions_failure_cases_witness :
    (printActionsHandler
        { busy := false, running := false, actions := ["trIdle"],
          executeResult := fun _ => { success := true } }
        { success := true, message := "" }).res
      = { success := false, message := "SM is not running" }
    ∧ Event.getAvailableActions ∉
        (printActionsHandler
          { busy := false, running := false, actions := ["trIdle"],
            executeResult := fun _ => { success := true } }
          { success := true, message := "" }).trace :=
  (print_actions_failure_cases
    { busy := false, running := false, actions := ["trIdle"],
      executeResult := fun _ => { success := true } }
    { success := true, message := "" }).1 rfl

/-- Every id line contributes exactly its id to `emittedIds`. -/
theorem emittedIds_idLines (l : List String) :
    emittedIds (l.map (fun s => Event.coutLine ["\t-", s])) = l := by
  induction l with
  | nil => rfl
  | cons a t ih =>
    simp only [emittedIds, List.map_cons, List.filterMap_cons] at ih ⊢
    rw [ih]

/-- C2: on a running machine whose action list `L` is not empty the handler
sets `success = true` and the ids it writes out are exactly the elements of `L`,
each once and in the order of `L`.  The list goes to standard output, one line
per id; the response message is left as it was handed in. -/
theorem print_actions_lists_ids (sm : SMView) (res : TriggerResponse)
    (hrun : sm.running = true) (hne : sm.actions ≠ []) :
    (printActionsHandler sm res).res.success = true
    ∧ emittedIds (printActionsHandler sm res).trace = sm.actions
    ∧ (printActionsHandler sm res).trace
        = [Event.isRunning, Event.getAvailableActions, Event.coutLine ["\nSM Actions: "]]
          ++ sm.actions.map (fun s => Event.coutLine ["\t-", s])
    ∧ (printActionsHandler sm res).res.message = res.message := by
  have hemp : sm.actions.isEmpty = false := by
    cases h : sm.actions with
    | nil => exact absurd h hne
    | cons a t => rfl
  have htr : (printActionsHandler sm res).trace
      = [Event.isRunning, Event.getAvailableActions, Event.coutLine ["\nSM Actions: "]]
        ++ sm.actions.map (fun s => Event.coutLine ["\t-", s]) := by
    simp [printActionsHandler, hrun, hemp]
  refine ⟨?_, ?_, htr, ?_⟩
  · simp [printActionsHandler, hrun, hemp]
  · rw [htr]
    have h := emittedIds_idLines sm.actions
    simp only [emittedIds, List.filterMap_append] at h ⊢
    rw [h]
    rfl
  · simp [printActionsHandler, hrun, hemp]

/-- Witness for C2: a running machine offering three actions, one of them twice. -/
theorem print_actions_lists_ids_witness :
    (printActionsHandler
        { busy := false, running := true, actions := ["trB", "trA", "trB"],
          executeResult := fun _ => { success := true } }
        { success := false, message := "" }).res.success = true
    ∧ emittedIds (printActionsHandler
        { busy := false, running := true, actions := ["trB", "trA", "trB"],
          executeResult := fun _ => { success := true } }
        { success := false, message := "" }).trace = ["trB", "trA", "trB"] :=
  have h := print_actions_lists_ids
    { busy := false, running := true, actions := ["trB", "trA", "trB"],
      executeResult := fun _ => { success := true } }
    { success := false, message := "" } rfl (by simp)
  ⟨h.1, h.2.1⟩

/-- C3: one `execute_state` message leads to at most one `execute` call.  While
the machine is busy there is none; otherwise there is exactly one, for an action
whose id is the message data, and `postAction` is never called. -/
theorem execute_state_at_most_one (sm : SMView) (msgData : String) :
    countExecute (executeStateHandler sm msgData) ≤ 1
    ∧ countPost (executeStateHandler sm msgData) = 0
    ∧ (sm.busy = true → countExecute (executeStateHandler sm msgData) = 0)
    ∧ (sm.busy = false →
        executedActions (executeStateHandler sm msgData) = [{ id := msgData }]
        ∧ countExecute (executeStateHandler sm msgData) = 1) := by
  cases hb : sm.busy <;> cases hs : (sm.executeResult { id := msgData }).success <;>
    simp [executeStateHandler, countExecute, countPost, executedActions, hb, hs]

/-- Witness for C3: an idle machine receiving "trIdle". -/
theorem execute_state_at_most_one_witness :
    executedActions (executeStateHandler
        { busy := false, running := true, actions := [],
          executeResult := fun _ => { success := false } } "trIdle")
      = [{ id := "trIdle" }]
    ∧ countExecute (executeStateHandler
        { busy := false, running := true, actions := [],
          executeResult := fun _ => { success := false } } "trIdle") = 1 :=
  (execute_state_at_most_one
    { busy := false, running := true, actions := [],
      executeResult := fun _ => { success := false } } "trIdle").2.2.2 rfl

/-- C4, as stated, fails: on a machine that is neither running nor busy the
handler does call `execute`. -/
theorem execute_state_not_running_counterexample :
    ¬ (∀ (sm : SMView) (msgData : String), sm.running = false →
        countExecute (executeStateHandler sm msgData) = 0) := by
  intro h
  have h1 := h { busy := false, running := false, actions := [],
                 executeResult := fun _ => { success := false } } "trIdle" rfl
  simp [executeStateHandler, countExecute] at h1

/-- C4, amended: the handler consults `isBusy` only.  It never calls
`isRunning`, its calls do not depend on the running flag, and on a machine that
is not busy, running or not, it calls `execute` exactly once with the message
data as id; while busy it does not call `execute`. -/
theorem execute_state_checks_busy_only (sm : SMView) (msgData : String) :
    Event.isRunning ∉ executeStateHandler sm msgData
    ∧ (∀ r : Bool,
        executeStateHandler { sm with running := r } msgData
          = executeStateHandler sm msgData)
    ∧ (sm.busy = false →
        executedActions (executeStateHandler sm msgData) = [{ id := msgData }])
    ∧ (sm.busy = true → executedActions (executeStateHandler sm msgData) = []) := by
  cases hb : sm.busy <;> cases hs : (sm.executeResult { id := msgData }).success <;>
    simp [executeStateHandler, executedActions, hb, hs]

/-- Witness for C4 amended: a stopped, idle machine receiving "trIdle". -/
theorem execute_state_checks_busy_only_witness :
    executedActions (executeStateHandler
        { busy := false, running := false, actions := [],
          executeResult := fun _ => { success := false } } "trIdle")
      = [{ id := "trIdle" }] :=
  (execute_state_checks_busy_only
    { busy := false, running := false, actions := [],
      executeResult := fun _ => { success := false } } "trIdle").2.2.1 rfl

/-! ## Theorems: `main` -/

/-- The outcome of `std::all_of` over `functions`, in terms of the engine answers. -/
theorem allOf_functions (env : MainEnv) :
    allOf env functions
      = ((registrationResults env).all id,
         registrationCalls.take (attempted (registrationResults env))) := by
  cases h1 : env.addEntryCallback "st3Reseting" false <;>
  cases h2 : env.addEntryCallback "st3Execute" true <;>
  cases h3 : env.addExitCallback "st3Execute" <;>
  cases h4 : env.addEntryCallback "st2Clearing" true <;>
    simp [allOf, functions, registrationResults, registrationCalls, attempted,
      Registration.result, Registration.event, h1, h2, h3, h4]

/-- The main loop makes no registration call. -/
theorem registrationsIn_mainLoop (n : Nat) : registrationsIn (mainLoop n) = [] := by
  induction n with
  | zero => rfl
  | succ k ih =>
    simp only [registrationsIn, mainLoop, List.filter_cons] at ih ⊢
    simpa using ih

/-- The main loop does not call `start`. -/
theorem start_not_mem_mainLoop (n : Nat) : Event.start ∉ mainLoop n := by
  induction n with
  | zero => simp [mainLoop]
  | succ k ih => simp [mainLoop, ih]

/-- C5: every setup-time error aborts start-up.  If the parameter is missing, or
`loadFile` returns false, or one of the four registrations returns false, `main`
returns -1 and never calls `start`; if `start` returns false, `main` returns -1
and never enters the main loop; and `main` returns 0 exactly when all of these
succeeded. -/
theorem main_aborts_on_setup_error (env : MainEnv) :
    (env.param = none → (main env).ret = -1 ∧ Event.start ∉ (main env).trace)
    ∧ (∀ file, env.param = some file → env.loadFile file = false →
        (main env).ret = -1 ∧ Event.start ∉ (main env).trace)
    ∧ (false ∈ registrationResults env →
        (main env).ret = -1 ∧ Event.start ∉ (main env).trace)
    ∧ (env.start = false →
        (main env).ret = -1 ∧ Event.processEvents ∉ (main env).trace)
    ∧ ((main env).ret = 0 ↔
        ∃ file, env.param = some file ∧ env.loadFile file = true
          ∧ (∀ b ∈ registrationResults env, b = true) ∧ env.start = true)
    ∧ ((main env).ret = 0 ∨ (main env).ret = -1) := by
  have hall := allOf_functions env
  cases hp : env.param with
  | none => simp [main, hp]
  | some file =>
    cases hl : env.loadFile file with
    | false => simp [main, hp, hl]
    | true =>
      cases h1 : env.addEntryCallback "st3Reseting" false <;>
      cases h2 : env.addEntryCallback "st3Execute" true <;>
      cases h3 : env.addExitCallback "st3Execute" <;>
      cases h4 : env.addEntryCallback "st2Clearing" true <;>
      cases hs : env.start <;>
        simp [main, hp, hl, hs, hall, registrationResults, registrationCalls, attempted,
          rosInterfaceCtor, MockApplication.create, h1, h2, h3, h4]

/-- Witness for C5: the third registration is refused. -/
theorem main_aborts_on_setup_error_witness :
    (main { param := some "demo.scxml", loadFile := fun _ => true,
            addEntryCallback := fun _ _ => true, addExitCallback := fun _ => false,
            start := true, okTicks := 2 }).ret = -1
    ∧ Event.start ∉
        (main { param := some "demo.scxml", loadFile := fun _ => true,
                addEntryCallback := fun _ _ => true, addExitCallback := fun _ => false,
                start := true, okTicks := 2 }).trace :=
  (main_aborts_on_setup_error
    { param := some "demo.scxml", loadFile := fun _ => true,
      addEntryCallback := fun _ _ => true, addExitCallback := fun _ => false,
      start := true, okTicks := 2 }).2.2.1 (by simp [registrationResults])

/-- C9: callbacks are registered before `start`.  Whenever `main` calls `start`,
`loadFile` has returned true, the four registrations have all returned true, and
everything `main` did before that call is, in this order: reading the parameter,
`loadFile`, the four registrations in declaration order, and the `ROSInterface`
constructor, which connects the observer to `state_entered`.  In every run that
gets past `loadFile`, the registrations attempted are the declared ones in order,
up to and including the first that returns false. -/
theorem main_registers_before_start (env : MainEnv) :
    (Event.start ∈ (main env).trace →
      ∃ file, env.param = some file ∧ env.loadFile file = true
        ∧ (∀ b ∈ registrationResults env, b = true)
        ∧ beforeStart (main env).trace
            = [Event.spinnerStart, Event.getParam "state_machine_file",
               Event.loadFile file, Event.rosInfo "Loaded file",
               Event.advertise PROCESS_EXECUTION_MSG]
              ++ registrationCalls ++ rosInterfaceCtor
        ∧ Event.connectStateEntered ∈ beforeStart (main env).trace)
    ∧ (∀ file, env.param = some file → env.loadFile file = true →
        registrationsIn (main env).trace
          = registrationCalls.take (attempted (registrationResults env)))
    ∧ ((env.param = none ∨ ∃ file, env.param = some file ∧ env.loadFile file = false) →
        registrationsIn (main env).trace = []) := by
  have hall := allOf_functions env
  have hloop := registrationsIn_mainLoop env.okTicks
  have hst := start_not_mem_mainLoop env.okTicks
  cases hp : env.param with
  | none => simp [main, hp, registrationsIn]
  | some file =>
    cases hl : env.loadFile file with
    | false => simp [main, hp, hl, registrationsIn]
    | true =>
      simp only [registrationsIn] at hloop
      cases h1 : env.addEntryCallback "st3Reseting" false <;>
      cases h2 : env.addEntryCallback "st3Execute" true <;>
      cases h3 : env.addExitCallback "st3Execute" <;>
      cases h4 : env.addEntryCallback "st2Clearing" true <;>
      cases hs : env.start <;>
        simp [main, hp, hl, hs, hall, registrationResults, registrationCalls, attempted,
          rosInterfaceCtor, MockApplication.create, h1, h2, h3, h4, registrationsIn,
          beforeStart, hloop, hst, List.takeWhile_cons, List.filter_cons]

/-- Witness for C9: a run in which the second registration is refused. -/
theorem main_registers_before_start_witness :
    registrationsIn
        (main { param := some "demo.scxml", loadFile := fun _ => true,
                addEntryCallback := fun s _ => decide (s = "st3Reseting"),
                addExitCallback := fun _ => true,
                start := true, okTicks := 1 }).trace
      = [Event.addEntryCallback "st3Reseting" false,
         Event.addEntryCallback "st3Execute" true] :=
  (main_registers_before_start
    { param := some "demo.scxml", loadFile := fun _ => true,
      addEntryCallback := fun s _ => decide (s = "st3Reseting"),
      addExitCallback := fun _ => true,
      start := true, okTicks := 1 }).2.1 "demo.scxml" rfl rfl

/-! ## Theorems: `MockApplication` and the registered callbacks -/

/-- The loop of `executeProcess` never calls `execute`. -/
theorem countExecute_processLoop (c : Bool) (oks : List Time) :
    countExecute (processLoop c oks) = 0 := by
  induction oks with
  | nil => rfl
  | cons t ts ih =>
    cases c
    · rfl
    · simp only [countExecute, processLoop, if_true, List.filter_cons] at ih ⊢
      simpa using ih

/-- The loop of `executeProcess` never calls `postAction`. -/
theorem countPost_processLoop (c : Bool) (oks : List Time) :
    countPost (processLoop c oks) = 0 := by
  induction oks with
  | nil => rfl
  | cons t ts ih =>
    cases c
    · rfl
    · simp only [countPost, processLoop, if_true, List.filter_cons] at ih ⊢
      simpa using ih

/-- With the flag set the loop publishes once per clock reading. -/
theorem publishedTimes_processLoop (oks : List Time) :
    publishedTimes (processLoop true oks) = oks := by
  induction oks with
  | nil => rfl
  | cons t ts ih =>
    simp only [publishedTimes, processLoop, if_true, List.filterMap_cons] at ih ⊢
    rw [ih]

/-- C7: `executeProcess` returns false exactly when `ready_` is false at the
call; in that case it publishes nothing and leaves both fields as they were.  It
returns false on a freshly constructed object and after `haltProcess`, and true
after `resetProcess`, also when the loop body runs zero times. -/
theorem executeProcess_false_iff_not_ready (app : MockApplication) (oks : List Time) :
    ((executeProcess app oks).ret = false ↔ app.ready_ = false)
    ∧ (app.ready_ = false →
        (executeProcess app oks).trace = [] ∧ (executeProcess app oks).app = app)
    ∧ (executeProcess app oks).app = app
    ∧ (executeProcess MockApplication.create.1 oks).ret = false
    ∧ (executeProcess (haltProcess app).1 oks).ret = false
    ∧ (executeProcess (resetProcess app).1 oks).ret = true
    ∧ executeProcess (resetProcess app).1 []
        = { ret := true, app := (resetProcess app).1, trace := [] } := by
  cases hr : app.ready_ <;>
    simp [executeProcess, hr, MockApplication.create, haltProcess, resetProcess, processLoop]

/-- Witness for C7: an object halted after a reset. -/
theorem executeProcess_false_iff_not_ready_witness :
    (executeProcess (haltProcess (resetProcess MockApplication.create.1).1).1 [7, 9]).trace = []
    ∧ (executeProcess (haltProcess (resetProcess MockApplication.create.1).1).1 [7, 9]).app
        = (haltProcess (resetProcess MockApplication.create.1).1).1 :=
  (executeProcess_false_iff_not_ready
    (haltProcess (resetProcess MockApplication.create.1).1).1 [7, 9]).2.1 rfl

/-- C8: the callbacks registered by `main` schedule follow-up transitions only
through the queue.  The `st3Reseting` entry callback calls `postAction` exactly
once, with id "trIdle", and the `st2Clearing` entry callback exactly once, with
id "trStopped", whatever the triggering action; both return success; and none of
the four registered callbacks ever calls `execute`. -/
theorem callbacks_post_never_execute (action : Action) (app : MockApplication)
    (oks : List Time) :
    postedActions (st3ResetingEntry action app oks).trace = [{ id := "trIdle" }]
    ∧ postedActions (st2ClearingEntry action app oks).trace = [{ id := "trStopped" }]
    ∧ (st3ResetingEntry action app oks).res.success = true
    ∧ (st2ClearingEntry action app oks).res.success = true
    ∧ (∀ r ∈ functions,
        match r.callback with
        | Callback.entry _ body => countExecute (body action app oks).trace = 0
        | Callback.exit body => countExecute (body app).2 = 0)
    ∧ countPost (st3ExecuteEntry action app oks).trace = 0
    ∧ countPost (st3ExecuteExit app).2 = 0 := by
  have hx := countExecute_processLoop app.continue_process_ oks
  have hq := countPost_processLoop app.continue_process_ oks
  refine ⟨by simp [st3ResetingEntry, resetProcess, postedActions],
          by simp [st2ClearingEntry, postedActions], rfl, rfl, ?_, ?_, ?_⟩
  · intro r hr
    simp only [functions, List.mem_cons, List.mem_singleton, List.not_mem_nil, or_false] at hr
    rcases hr with h | h | h | h <;> subst h
    · simp [st3ResetingEntry, resetProcess, countExecute]
    · cases hrd : app.ready_
      · simp [st3ExecuteEntry, executeProcess, hrd, countExecute]
      · simpa [st3ExecuteEntry, executeProcess, hrd] using hx
    · simp [st3ExecuteExit, haltProcess, countExecute]
    · simp [st2ClearingEntry, countExecute]
  · cases hrd : app.ready_
    · simp [st3ExecuteEntry, executeProcess, hrd, countPost]
    · simpa [st3ExecuteEntry, executeProcess, hrd] using hq
  · simp [st3ExecuteExit, haltProcess, countPost]

/-- Witness for C8: the third element of `functions`, the exit callback. -/
theorem callbacks_post_never_execute_witness :
    countExecute (st3ExecuteExit { continue_process_ := true, ready_ := true }).2 = 0 :=
  (callbacks_post_never_execute { id := "trExecute" }
      { continue_process_ := true, ready_ := true } [3]).2.2.2.2.1
    { state := "st3Execute", callback := Callback.exit st3ExecuteExit }
    (by simp [functions])

/-- C10, the code at the failing registration: the first element of `functions`
is an entry callback for `st3Reseting` registered with mode false (synchronous),
and on every invocation its body performs a 3000 ms sleep before it posts. -/
theorem sync_entry_callback_sleeps (action : Action) (app : MockApplication)
    (oks : List Time) :
    (∃ r ∈ functions, r.state = "st3Reseting"
        ∧ r.event = Event.addEntryCallback "st3Reseting" false
        ∧ match r.callback with
          | Callback.entry async body =>
              async = false ∧ hasSleep (body action app oks).trace = true
          | Callback.exit _ => False)
    ∧ (st3ResetingEntry action app oks).trace
        = [Event.rosInfo "Reseted process variables", Event.sleep 3000,
           Event.postAction { id := "trIdle" }] := by
  refine ⟨⟨{ state := "st3Reseting", callback := Callback.entry false st3ResetingEntry },
            by simp [functions], rfl, rfl, rfl, ?_⟩, ?_⟩
  · simp [st3ResetingEntry, resetProcess, hasSleep]
  · simp [st3ResetingEntry, resetProcess]

/-! ## Theorems: `executeProcess` against a concurrent `haltProcess` -/

theorem run_cons (c : Config) (x : Step) (s : List Step) :
    run c (x :: s) = run (step c x) s := rfl

theorem run_append (c : Config) (s1 s2 : List Step) :
    run c (s1 ++ s2) = run (run c s1) s2 := by
  simp [run, List.foldl_append]

theorem execSteps_cons_exec (ok : Bool) (now : Time) (s : List Step) :
    execSteps (Step.exec ok now :: s) = execSteps s + 1 := by
  simp [execSteps]

theorem execSteps_cons_halt (s : List Step) :
    execSteps (Step.halt :: s) = execSteps s := by
  simp [execSteps]

/-- A move of the `haltProcess` thread leaves the other thread where it is. -/
theorem stepHalt_exec (c : Config) :
    (stepHalt c).execPc = c.execPc ∧ (stepHalt c).published = c.published
    ∧ (stepHalt c).iterations = c.iterations := by
  cases h : c.haltPc <;> simp [stepHalt, h]

/-- Once `executeProcess` has returned nothing it owns changes any more. -/
theorem step_done (c : Config) (x : Step) (r : Bool) (h : c.execPc = ExecPc.done r) :
    (step c x).execPc = ExecPc.done r ∧ (step c x).published = c.published
    ∧ (step c x).iterations = c.iterations := by
  cases x with
  | exec ok now => simp [step, stepExec, h]
  | halt =>
    have := stepHalt_exec c
    simp [step, this, h]

theorem run_done (s : List Step) (c : Config) (r : Bool) (h : c.execPc = ExecPc.done r) :
    (run c s).execPc = ExecPc.done r ∧ (run c s).published = c.published
    ∧ (run c s).iterations = c.iterations := by
  induction s generalizing c with
  | nil => exact ⟨h, rfl, rfl⟩
  | cons x t ih =>
    have hs := step_done c x r h
    have := ih (step c x) hs.1
    rw [run_cons]
    exact ⟨this.1, this.2.1.trans hs.2.1, this.2.2.trans hs.2.2⟩

/-- One message per passed loop condition is kept by every move. -/
theorem step_iterations (c : Config) (x : Step)
    (h : c.published.length + c.pending = c.iterations) :
    (step c x).published.length + (step c x).pending = (step c x).iterations := by
  cases x with
  | halt =>
    have hh := stepHalt_exec c
    simp only [step, Config.pending, hh.1, hh.2.1, hh.2.2] at h ⊢
    exact h
  | exec ok now =>
    cases hpc : c.execPc with
    | checkReady =>
      cases hr : c.app.ready_ <;>
        simp [step, stepExec, hpc, hr, Config.pending] at h ⊢ <;> exact h
    | checkLoop =>
      cases hc : c.app.continue_process_ <;> cases ok <;>
        simp [step, stepExec, hpc, hc, Config.pending] at h ⊢ <;> omega
    | publish =>
      simp [step, stepExec, hpc, Config.pending] at h ⊢
      omega
    | pause =>
      simp [step, stepExec, hpc, Config.pending] at h ⊢
      exact h
    | done r =>
      simp [step, stepExec, hpc, Config.pending] at h ⊢
      exact h

theorem run_iterations (s : List Step) (c : Config)
    (h : c.published.length + c.pending = c.iterations) :
    (run c s).published.length + (run c s).pending = (run c s).iterations := by
  induction s generalizing c with
  | nil => exact h
  | cons x t ih => exact ih (step c x) (step_iterations c x h)

/-- Nothing in this model sets `continue_process_` back to true. -/
theorem step_continue_false (c : Config) (x : Step)
    (h : c.app.continue_process_ = false) :
    (step c x).app.continue_process_ = false := by
  cases x with
  | halt => cases hh : c.haltPc <;> simp [step, stepHalt, hh, h]
  | exec ok now =>
    cases hpc : c.execPc with
    | checkReady => cases hr : c.app.ready_ <;> simp [step, stepExec, hpc, hr, h]
    | checkLoop => simp [step, stepExec, hpc, h]
    | publish => simp [step, stepExec, hpc, h]
    | pause => simp [step, stepExec, hpc, h]
    | done r => simp [step, stepExec, hpc, h]

/-- After the first move of `haltProcess` the flag `continue_process_` is false. -/
theorem step_haltInvoked (c : Config) (x : Step)
    (h : c.haltInvoked = true → c.app.continue_process_ = false) :
    (step c x).haltInvoked = true → (step c x).app.continue_process_ = false := by
  cases hh : c.haltPc with
  | clearContinue =>
    cases x with
    | halt => simp [step, stepHalt, hh]
    | exec ok now =>
      cases hpc : c.execPc with
      | checkReady =>
        cases hr : c.app.ready_ <;> simp [step, stepExec, hpc, hr, hh, Config.haltInvoked]
      | checkLoop =>
        cases hc : c.app.continue_process_ <;> cases ok <;>
          simp [step, stepExec, hpc, hc, hh, Config.haltInvoked]
      | publish => simp [step, stepExec, hpc, hh, Config.haltInvoked]
      | pause => simp [step, stepExec, hpc, hh, Config.haltInvoked]
      | done r => simp [step, stepExec, hpc, hh, Config.haltInvoked]
  | clearReady =>
    intro _
    exact step_continue_false c x (h (by simp [Config.haltInvoked, hh]))
  | log =>
    intro _
    exact step_continue_false c x (h (by simp [Config.haltInvoked, hh]))
  | done =>
    intro _
    exact step_continue_false c x (h (by simp [Config.haltInvoked, hh]))

theorem run_haltInvoked (s : List Step) (c : Config)
    (h : c.haltInvoked = true → c.app.continue_process_ = false) :
    (run c s).haltInvoked = true → (run c s).app.continue_process_ = false := by
  induction s generalizing c with
  | nil => exact h
  | cons x t ih => exact ih (step c x) (step_haltInvoked c x h)

/-- With `continue_process_` false every move of `executeProcess` brings it
closer to its return. -/
theorem stepExec_distance (c : Config) (ok : Bool) (now : Time)
    (h : c.app.continue_process_ = false) :
    (stepExec c ok now).execPc.distance ≤ c.execPc.distance - 1 := by
  cases hpc : c.execPc with
  | checkReady => cases hr : c.app.ready_ <;> simp [stepExec, hpc, hr, ExecPc.distance]
  | checkLoop => simp [stepExec, hpc, h, ExecPc.distance]
  | publish => simp [stepExec, hpc, ExecPc.distance]
  | pause => simp [stepExec, hpc, ExecPc.distance]
  | done r => simp [stepExec, hpc, ExecPc.distance]

theorem run_distance (s : List Step) (c : Config)
    (h : c.app.continue_process_ = false) :
    (run c s).execPc.distance ≤ c.execPc.distance - execSteps s := by
  induction s generalizing c with
  | nil => simp [run, execSteps]
  | cons x t ih =>
    have hc := step_continue_false c x h
    have hi := ih (step c x) hc
    rw [run_cons]
    cases x with
    | halt =>
      have hh := stepHalt_exec c
      rw [execSteps_cons_halt]
      simp only [step, hh.1] at hi
      exact hi
    | exec ok now =>
      have hd := stepExec_distance c ok now h
      rw [execSteps_cons_exec]
      simp only [step] at hi hd ⊢
      omega

theorem distance_le_three (pc : ExecPc) : pc.distance ≤ 3 := by
  cases pc <;> simp [ExecPc.distance]

theorem returned_of_distance_zero (c : Config) (h : c.execPc.distance = 0) :
    c.returned = true := by
  cases hpc : c.execPc <;> simp [hpc, ExecPc.distance, Config.returned] at h ⊢

/-- Once past the `ready_` test the only return value left is true. -/
theorem step_pastReady (c : Config) (x : Step) (h : c.pastReady = true) :
    (step c x).pastReady = true := by
  cases x with
  | halt =>
    have hh := stepHalt_exec c
    simp only [step, Config.pastReady, hh.1] at h ⊢
    exact h
  | exec ok now =>
    cases hpc : c.execPc with
    | checkReady => simp [Config.pastReady, hpc] at h
    | checkLoop =>
      cases hc : c.app.continue_process_ <;> cases ok <;>
        simp [step, stepExec, hpc, hc, Config.pastReady]
    | publish => simp [step, stepExec, hpc, Config.pastReady]
    | pause => simp [step, stepExec, hpc, Config.pastReady]
    | done r =>
      simp [Config.pastReady, hpc] at h
      simp [step, stepExec, hpc, Config.pastReady, h]

theorem run_pastReady (s : List Step) (c : Config) (h : c.pastReady = true) :
    (run c s).pastReady = true := by
  induction s generalizing c with
  | nil => exact h
  | cons x t ih => exact ih (step c x) (step_pastReady c x h)

/-- Before the `ready_` test is passed nothing has been published. -/
theorem step_notReady_published (c : Config) (x : Step)
    (h : c.pastReady = false → c.published = []) :
    (step c x).pastReady = false → (step c x).published = [] := by
  cases hp : c.pastReady with
  | true =>
    intro hf
    rw [step_pastReady c x hp] at hf
    exact absurd hf (by decide)
  | false =>
    have hpub := h hp
    cases x with
    | halt =>
      intro _
      show (stepHalt c).published = []
      rw [(stepHalt_exec c).2.1]
      exact hpub
    | exec ok now =>
      cases hpc : c.execPc with
      | checkReady =>
        cases hr : c.app.ready_ <;> simp [step, stepExec, hpc, hr, Config.pastReady, hpub]
      | checkLoop => simp [Config.pastReady, hpc] at hp
      | publish => simp [Config.pastReady, hpc] at hp
      | pause => simp [Config.pastReady, hpc] at hp
      | done r => simp [step, stepExec, hpc, hpub]

theorem run_notReady_published (s : List Step) (c : Config)
    (h : c.pastReady = false → c.published = []) :
    (run c s).pastReady = false → (run c s).published = [] := by
  induction s generalizing c with
  | nil => exact h
  | cons x t ih => exact ih (step c x) (step_notReady_published c x h)

/-- A move of `haltProcess` while `executeProcess` waits at its first statement. -/
theorem stepHalt_haltedFor (c : Config) (n : Nat) (h : c.haltedFor n) :
    (stepHalt c).haltedFor (n + 1) := by
  obtain ⟨hpc, hcase⟩ := h
  rcases hcase with ⟨hn, hh, hr⟩ | ⟨hn, hh, hr⟩ | ⟨hn, hh, hr⟩
  · subst hn
    refine ⟨by simp [stepHalt, hh, hpc], Or.inr (Or.inl ⟨rfl, ?_, ?_⟩)⟩ <;>
      simp [stepHalt, hh, hr]
  · subst hn
    refine ⟨by simp [stepHalt, hh, hpc], Or.inr (Or.inr ⟨by omega, ?_, ?_⟩)⟩ <;>
      simp [stepHalt, hh]
  · rcases hh with hh | hh
    · refine ⟨by simp [stepHalt, hh, hpc], Or.inr (Or.inr ⟨by omega, ?_, ?_⟩)⟩ <;>
        simp [stepHalt, hh, hr]
    · refine ⟨by simp [stepHalt, hh, hpc], Or.inr (Or.inr ⟨by omega, ?_, ?_⟩)⟩ <;>
        simp [stepHalt, hh, hr]

theorem run_haltedFor (s : List Step) (c : Config) (n : Nat) (h : c.haltedFor n)
    (hs : execSteps s = 0) : (run c s).haltedFor (n + s.length) := by
  induction s generalizing c n with
  | nil => exact h
  | cons x t ih =>
    cases x with
    | exec ok now => rw [execSteps_cons_exec] at hs; omega
    | halt =>
      rw [execSteps_cons_halt] at hs
      have := ih (stepHalt c) (n + 1) (stepHalt_haltedFor c n h) hs
      rw [run_cons]
      simp only [step, List.length_cons]
      have e : n + (t.length + 1) = n + 1 + t.length := by omega
      rw [e]
      exact this

theorem afterReset_haltedFor : afterReset.haltedFor 0 := by
  refine ⟨rfl, Or.inl ⟨rfl, rfl, rfl⟩⟩

/-- The value `executeProcess` returns is decided by how many moves of
`haltProcess` came before its `ready_` test. -/
theorem run_return_value (pre post : List Step) (ok : Bool) (now : Time) (r : Bool)
    (hpre : execSteps pre = 0)
    (hdone : (run afterReset (pre ++ Step.exec ok now :: post)).execPc = ExecPc.done r) :
    r = decide (pre.length < 2) := by
  have hJ := run_haltedFor pre afterReset 0 afterReset_haltedFor hpre
  rw [run_append, run_cons] at hdone
  obtain ⟨hpc, hcase⟩ := hJ
  have hready : (run afterReset pre).app.ready_ = decide (pre.length < 2) := by
    rcases hcase with ⟨hn, _, hr⟩ | ⟨hn, _, hr⟩ | ⟨hn, _, hr⟩
    · rw [hr]; simp; omega
    · rw [hr]; simp; omega
    · rw [hr]; simp; omega
  cases hr : (run afterReset pre).app.ready_ with
  | false =>
    have h1 : (step (run afterReset pre) (Step.exec ok now)).execPc = ExecPc.done false := by
      simp [step, stepExec, hpc, hr]
    have h2 := (run_done post _ false h1).1
    rw [h2] at hdone
    rw [← hready, hr]
    injection hdone with e
    exact e.symm
  | true =>
    have h1 : (step (run afterReset pre) (Step.exec ok now)).pastReady = true := by
      simp [step, stepExec, hpc, hr, Config.pastReady]
    have h2 := run_pastReady post _ h1
    simp only [Config.pastReady, hdone] at h2
    rw [← hready, hr]
    exact h2

/-- The loop part of an undisturbed call, from the loop condition on. -/
theorem run_solo_loop (oks : List Time) (c : Config)
    (hpc : c.execPc = ExecPc.checkLoop) (hc : c.app.continue_process_ = true) :
    (run c (oks.flatMap (fun t => [Step.exec true t, Step.exec true t, Step.exec true t])
            ++ [Step.exec false 0])).execPc = ExecPc.done true
    ∧ (run c (oks.flatMap (fun t => [Step.exec true t, Step.exec true t, Step.exec true t])
            ++ [Step.exec false 0])).published = c.published ++ oks := by
  induction oks generalizing c with
  | nil => simp [run, step, stepExec, hpc]
  | cons t ts ih =>
    have h := ih { c with published := c.published ++ [t], iterations := c.iterations + 1 }
      hpc hc
    simp only [List.flatMap_cons, List.append_assoc, List.cons_append, List.nil_append,
      run_cons]
    have e : step (step (step c (Step.exec true t)) (Step.exec true t)) (Step.exec true t)
        = { c with published := c.published ++ [t], iterations := c.iterations + 1 } := by
      simp [step, stepExec, hpc, hc]
    rw [e]
    simpa using h

/-- The one-thread function `executeProcess` agrees with the two-thread model on
the schedules in which `haltProcess` never moves. -/
theorem solo_run_agrees (app : MockApplication) (oks : List Time) :
    (run (Config.start app) (soloSchedule oks)).execPc
        = ExecPc.done (executeProcess app oks).ret
    ∧ (run (Config.start app) (soloSchedule oks)).published
        = publishedTimes (executeProcess app oks).trace := by
  cases hr : app.ready_ with
  | false =>
    have h1 : (step (Config.start app) (Step.exec true 0)).execPc = ExecPc.done false := by
      simp [step, stepExec, Config.start, hr]
    have h2 := run_done
      (oks.flatMap (fun t => [Step.exec true t, Step.exec true t, Step.exec true t])
        ++ [Step.exec false 0]) _ false h1
    simp only [soloSchedule, run_cons]
    refine ⟨by simpa [executeProcess, hr] using h2.1, ?_⟩
    rw [h2.2.1]
    simp [step, stepExec, Config.start, hr, executeProcess, publishedTimes]
  | true =>
    have h1 : step (Config.start app) (Step.exec true 0)
        = { Config.start app with execPc := ExecPc.checkLoop } := by
      simp [step, stepExec, Config.start, hr]
    simp only [soloSchedule, run_cons, h1]
    cases hc : app.continue_process_ with
    | true =>
      have h := run_solo_loop oks { Config.start app with execPc := ExecPc.checkLoop }
        rfl (by simpa [Config.start] using hc)
      refine ⟨by simpa [executeProcess, hr] using h.1, ?_⟩
      rw [h.2]
      simp [executeProcess, hr, hc, publishedTimes_processLoop, Config.start]
    | false =>
      have hloop : processLoop false oks = [] := by cases oks <;> rfl
      have hfirst : ∀ (x : Step) (rest : List Step), (∃ ok now, x = Step.exec ok now) →
          (run { Config.start app with execPc := ExecPc.checkLoop } (x :: rest)).execPc
              = ExecPc.done true
          ∧ (run { Config.start app with execPc := ExecPc.checkLoop } (x :: rest)).published
              = [] := by
        intro x rest hx
        obtain ⟨ok, now, rfl⟩ := hx
        have hd : (step { Config.start app with execPc := ExecPc.checkLoop }
            (Step.exec ok now)).execPc = ExecPc.done true := by
          simp [step, stepExec, Config.start, hc]
        have h2 := run_done rest _ true hd
        rw [run_cons]
        refine ⟨h2.1, ?_⟩
        rw [h2.2.1]
        simp [step, stepExec, Config.start, hc]
      cases oks with
      | nil =>
        have h := hfirst (Step.exec false 0) [] ⟨false, 0, rfl⟩
        simpa [executeProcess, hr, hc, processLoop, publishedTimes] using h
      | cons t ts =>
        have h := hfirst (Step.exec true t)
          ([Step.exec true t, Step.exec true t]
            ++ (ts.flatMap (fun t => [Step.exec true t, Step.exec true t, Step.exec true t])
                ++ [Step.exec false 0])) ⟨true, t, rfl⟩
        simpa [executeProcess, hr, hc, processLoop, publishedTimes] using h

/-- C6, as stated, fails: there is an interleaving, after `resetProcess`, in
which `haltProcess` has been invoked and `executeProcess` returns false. -/
theorem executeProcess_halted_first_counterexample :
    ¬ (∀ (s : List Step) (r : Bool),
        (run afterReset s).haltInvoked = true →
        (run afterReset s).execPc = ExecPc.done r → r = true) := by
  intro h
  have h1 := h [Step.halt, Step.halt, Step.exec true 0] false rfl rfl
  exact Bool.false_ne_true h1

/-- C6, amended: after `resetProcess`, in every interleaving of `executeProcess`
with `haltProcess`: one message is published per loop condition that evaluated to
true; a loop condition that sees both flags set true is followed by exactly one
publication; after a loop condition that sees `continue_process_` false nothing
more is published and no further iteration starts, and `executeProcess` has
returned true; once `haltProcess` has been invoked, `executeProcess` returns
within three more of its own moves; and the value it returns is true exactly when
fewer than two moves of `haltProcess` (the two stores) came before its `ready_`
test, false otherwise, and when it returns false nothing has been published. -/
theorem executeProcess_stops_once_flag_cleared (s : List Step) :
    ((run afterReset s).published.length + (run afterReset s).pending
        = (run afterReset s).iterations)
    ∧ ((run afterReset s).execPc = ExecPc.checkLoop →
        (run afterReset s).app.continue_process_ = true →
        ∀ now1 now2,
          (run (run afterReset s) [Step.exec true now1, Step.exec true now2]).published
            = (run afterReset s).published ++ [now2])
    ∧ ((run afterReset s).execPc = ExecPc.checkLoop →
        (run afterReset s).app.continue_process_ = false →
        ∀ ok now s2,
          (run (stepExec (run afterReset s) ok now) s2).execPc = ExecPc.done true
          ∧ (run (stepExec (run afterReset s) ok now) s2).published
              = (run afterReset s).published
          ∧ (run (stepExec (run afterReset s) ok now) s2).iterations
              = (run afterReset s).iterations)
    ∧ ((run afterReset s).haltInvoked = true →
        ∀ s2, 3 ≤ execSteps s2 → (run (run afterReset s) s2).returned = true)
    ∧ (∀ pre post ok now r, s = pre ++ Step.exec ok now :: post → execSteps pre = 0 →
        (run afterReset s).execPc = ExecPc.done r → r = decide (pre.length < 2))
    ∧ ((run afterReset s).execPc = ExecPc.done false → (run afterReset s).published = []) := by
  refine ⟨?_, ?_, ?_, ?_, ?_, ?_⟩
  · exact run_iterations s afterReset rfl
  · intro hpc hc now1 now2
    generalize run afterReset s = c at hpc hc ⊢
    have e1 : step c (Step.exec true now1)
        = { c with execPc := ExecPc.publish, iterations := c.iterations + 1 } := by
      simp [step, stepExec, hpc, hc]
    rw [run_cons, run_cons, e1]
    simp [run, step, stepExec]
  · intro hpc hc ok now s2
    have hd : (stepExec (run afterReset s) ok now).execPc = ExecPc.done true := by
      simp [stepExec, hpc, hc]
    have h2 := run_done s2 _ true hd
    refine ⟨h2.1, ?_, ?_⟩
    · rw [h2.2.1]; simp [stepExec, hpc, hc]
    · rw [h2.2.2]; simp [stepExec, hpc, hc]
  · intro hinv s2 hlen
    have hc := run_haltInvoked s afterReset (by simp [Config.haltInvoked, afterReset, Config.start]) hinv
    have hd := run_distance s2 (run afterReset s) hc
    have h3 := distance_le_three (run afterReset s).execPc
    exact returned_of_distance_zero _ (by omega)
  · intro pre post ok now r hs hpre hdone
    subst hs
    exact run_return_value pre post ok now r hpre hdone
  · intro hdone
    exact run_notReady_published s afterReset (fun _ => rfl) (by simp [Config.pastReady, hdone])

/-- Witness for C6 amended: the loop is interrupted inside its first iteration
and returns within three further moves. -/
theorem executeProcess_stops_once_flag_cleared_witness :
    (run (run afterReset [Step.exec true 0, Step.exec true 5, Step.halt])
        [Step.exec true 5, Step.halt, Step.exec true 5, Step.exec true 6]).returned = true :=
  (executeProcess_stops_once_flag_cleared
      [Step.exec true 0, Step.exec true 5, Step.halt]).2.2.2.1 rfl
    [Step.exec true 5, Step.halt, Step.exec true 5, Step.exec true 6] (by decide)

end RosScxml
